import Mathlib

/-!
Shallow embedding of `data_cleaning_rules.py` (class `InsuranceDataCleaner`).

The table is modelled as a list of rows; each pipeline step is a function on
such lists.  A cell that pandas would hold as `NaN`/`NaT` is modelled as
`Option.none`.  Columns that a step drops disappear from the row structure
type of the following stage.  Steps that can raise at runtime
(`split_insurance_dates`' two-column assignment, `calculate_insurance_duration`'s
`relativedelta` call on a missing date) return `Except String _`.
-/

/-! ### Calendar dates

A calendar date, as produced by `pandas.to_datetime` (time-of-day components
are never used by the cleaning code, so they are omitted). -/

structure Date where
  year : Int
  month : Nat
  day : Nat
deriving DecidableEq

/-- Gregorian leap-year rule (as in Python's `calendar.isleap`). -/
def isLeapYear (y : Int) : Bool :=
  y % 4 == 0 && (y % 100 != 0 || y % 400 == 0)

/-- Number of days of month `m` in year `y` (Python `calendar.monthrange(y, m)[1]`). -/
def daysInMonth (y : Int) (m : Nat) : Nat :=
  if m = 2 then (if isLeapYear y then 29 else 28)
  else if m = 4 ∨ m = 6 ∨ m = 9 ∨ m = 11 then 30
  else 31

/-- A structurally valid calendar date (what `datetime.date` enforces). -/
def Date.valid (d : Date) : Bool :=
  1 ≤ d.year && 1 ≤ d.month && d.month ≤ 12 && 1 ≤ d.day && d.day ≤ daysInMonth d.year d.month

/-- Python `datetime` comparison: lexicographic on (year, month, day). -/
def dateLt (a b : Date) : Bool :=
  a.year < b.year ||
    (a.year == b.year &&
      (a.month < b.month || (a.month == b.month && a.day < b.day)))

/-- Months elapsed since year 0 at the first of `d`'s month; used to reason
about month arithmetic. -/
def monthIndex (d : Date) : Int :=
  d.year * 12 + ((d.month : Int) - 1)

/-! ### `dateutil.relativedelta`, restricted to the year/month fields

`calculate_insurance_duration` only reads `diff.years` and `diff.months`, so
only the year/month part of the algorithm is embedded.  The definitions below
follow `relativedelta.__init__`'s two-datetime branch, `_set_months` and
`__add__` step by step. -/

/-- Python `relativedelta._set_months`: normalize a total month count into
`(years, months)` with `|months| ≤ 11` (Python: `divmod(months * s, 12)`
with `s` the sign, then multiply both parts back by `s`). -/
def setMonths (m : Int) : Int × Int :=
  if 11 < m.natAbs then
    let q := m.natAbs / 12
    let r := m.natAbs % 12
    if m < 0 then (-(q : Int), -(r : Int)) else ((q : Int), (r : Int))
  else (0, m)

/-- Python `relativedelta.__add__` applied to a date, for a delta that only has
`years`/`months` set (the only shape `__init__` builds before its
adjustment loop): add the months, renormalize the month into 1..12, and
clamp the day to the length of the resulting month. -/
def addYM (years months : Int) (other : Date) : Date :=
  let y0 := other.year + years
  let m0 : Int := (other.month : Int) + months
  let ym := if 12 < m0 then (y0 + 1, m0 - 12)
            else if m0 < 1 then (y0 - 1, m0 + 12)
            else (y0, m0)
  { year := ym.1, month := ym.2.toNat,
    day := min (daysInMonth ym.1 ym.2.toNat) other.day }

/-- Computes `dt2 + relativedelta(months=m)` as done inside `relativedelta.__init__`
(`self._set_months(months); dtm = self.__radd__(dt2)`). -/
def addMonths (d : Date) (m : Int) : Date :=
  let ym := setMonths m
  addYM ym.1 ym.2 d

/-- The overshoot-adjustment loop of `relativedelta.__init__`
(`while compare(dt1, dtm): months += increment; dtm = dt2 + months`),
written with explicit fuel.  The loop provably stops after at most one
iteration (established inside `rdTotalMonths_max` below), so any fuel ≥ 2
computes its limit. -/
def rdLoop (dt1 dt2 : Date) (cmp : Date → Date → Bool) (inc : Int) :
    Nat → Int → Int
  | 0, months => months
  | fuel + 1, months =>
    if cmp dt1 (addMonths dt2 months) then
      rdLoop dt1 dt2 cmp inc fuel (months + inc)
    else months

/-- Fuel for `rdLoop`; any value ≥ 2 yields the loop's limit. -/
def rdFuel : Nat := 4

/-- Total whole-month component of `relativedelta(dt1, dt2)`
(equal to `years * 12 + months` of the resulting delta):
the raw month difference, adjusted downwards (for `dt1 ≥ dt2`; upwards for
`dt1 < dt2`) while the day-clamped date `dt2 + months` overshoots `dt1`. -/
def rdTotalMonths (dt1 dt2 : Date) : Int :=
  let months := (dt1.year - dt2.year) * 12 + ((dt1.month : Int) - (dt2.month : Int))
  if dateLt dt1 dt2 then
    rdLoop dt1 dt2 (fun a b => dateLt b a) 1 rdFuel months
  else
    rdLoop dt1 dt2 dateLt (-1) rdFuel months

/-- The final `(years, months)` fields of `relativedelta(dt1, dt2)`
(the loop's month total renormalized by `_set_months`). -/
def rdYearsMonths (dt1 dt2 : Date) : Int × Int :=
  setMonths (rdTotalMonths dt1 dt2)

/-! ### String helpers modelling the Python/pandas primitives used. -/

/-- Python `str.split(sep)` for a one-character separator (no maxsplit):
`"".split(sep) = [""]`, and `k` separators yield `k+1` parts. -/
def splitChar (sep : Char) : List Char → List (List Char)
  | [] => [[]]
  | c :: cs =>
    let rest := splitChar sep cs
    if c = sep then [] :: rest
    else
      match rest with
      | [] => [[c]]
      | r :: rs => (c :: r) :: rs

/-- Python `s.split(sep)` on strings. -/
def strSplit (sep : Char) (s : String) : List String :=
  (splitChar sep s.data).map fun cs => ⟨cs⟩

/-- Python whitespace test for `str.strip()` (the whitespace characters
occurring in this data). -/
def isPySpace (c : Char) : Bool :=
  c == ' ' || c == '\t' || c == '\n' || c == '\r'

/-- Python `str.strip()`. -/
def pyStrip (s : String) : String :=
  ⟨((s.data.dropWhile isPySpace).reverse.dropWhile isPySpace).reverse⟩

/-- Python `str.lower()` on one character, covering ASCII and the Cyrillic
alphabet used by the lookup tables. -/
def pyLowerChar (c : Char) : Char :=
  if 'A' ≤ c ∧ c ≤ 'Z' then Char.ofNat (c.toNat + 32)
  else if c = 'Ё' then 'ё'
  else if 'А' ≤ c ∧ c ≤ 'Я' then Char.ofNat (c.toNat + 32)
  else c

/-- Python `str.lower()`. -/
def pyLower (s : String) : String :=
  ⟨s.data.map pyLowerChar⟩

/-- pandas `Series.astype(str)` on one cell: a missing value is rendered as
the literal string `"nan"`. -/
def astypeStr (v : Option String) : String :=
  v.getD "nan"

/-- Numeric value of a digit string (as Python `int` on a digit-only string). -/
def digitsToNat (cs : List Char) : Nat :=
  cs.foldl (fun a c => a * 10 + (c.toNat - 48)) 0

/-- Models `pd.to_datetime(value, format="%d.%m.%Y", errors="coerce")` on a single
string: strptime's `%d`/`%m` accept one or two digits with value ranges
1–31 / 1–12, `%Y` exactly four digits; the assembled date must be a valid
`datetime` (day within the month, year ≥ 1), otherwise the result is `NaT`
(`none`). -/
def parseDMY (s : String) : Option Date :=
  match splitChar '.' s.data with
  | [d, m, y] =>
    if d.all Char.isDigit ∧ m.all Char.isDigit ∧ y.all Char.isDigit ∧
        1 ≤ d.length ∧ d.length ≤ 2 ∧ 1 ≤ m.length ∧ m.length ≤ 2 ∧
        y.length = 4 then
      let dy := digitsToNat d
      let mo := digitsToNat m
      let yr := digitsToNat y
      if 1 ≤ dy ∧ dy ≤ 31 ∧ 1 ≤ mo ∧ mo ≤ 12 ∧ 1 ≤ yr ∧
          dy ≤ daysInMonth (yr : Int) mo then
        some { year := (yr : Int), month := mo, day := dy }
      else none
    else none
  | _ => none

/-- Models `pd.to_datetime(value, errors="coerce")` with inferred format, on the
value shapes this dataset holds: a four-digit year (parsed by pandas as
January 1 of that year) or a `d.m.Y` date string; other shapes yield `NaT`. -/
def parseFlexi (s : String) : Option Date :=
  if s.data.all Char.isDigit ∧ s.data.length = 4 then
    if 1 ≤ digitsToNat s.data then
      some { year := (digitsToNat s.data : Int), month := 1, day := 1 }
    else none
  else parseDMY s

/-! ### Missing-value (NaN) aware cell operations

pandas comparisons against `NaN` are `False`; arithmetic with `NaN` is `NaN`. -/

/-- Column subtraction: `NaN` if either operand is missing. -/
def optSub (a b : Option Int) : Option Int :=
  match a, b with
  | some x, some y => some (x - y)
  | _, _ => none

/-- Cell comparison `a > b`: `False` whenever either side is missing. -/
def optGtB (a b : Option Int) : Bool :=
  match a, b with
  | some x, some y => decide (y < x)
  | _, _ => false

/-- Cell comparison `a < c` for a constant `c`: `False` when the cell is missing. -/
def optLtConst (a : Option Int) (c : Int) : Bool :=
  match a with
  | some x => decide (x < c)
  | none => false

/-- Cell comparison `a ≥ c` for a constant `c`: `False` when the cell is missing. -/
def optGeConst (a : Option Int) (c : Int) : Bool :=
  match a with
  | some x => decide (c ≤ x)
  | none => false

/-- First-match lookup in an association list (a Python `dict` literal whose
keys are distinct). -/
def lookupPairs (m : List (String × String)) (k : String) : Option String :=
  (m.find? fun p => p.1 == k).map (·.2)

/-! ### Row types, one per pipeline stage

The raw sheet's columns (spec §6).  `Unique number` contains a space in the
source data; it is rendered here as `Unique_number`. -/

structure Row0 where
  Unique_number : Option String
  Citizenship : Option String
  Gender : Option String
  Loss_amount : Option Int
  Accident_region : Option String
  Age : Option Int
  Driving_experience : Option Int
  Vehicle_type : Option String
  Year_of_manufacture : Option String
  Insurance_period : Option String
  Privileges : Option String
  Color : Option String
  Brand : Option String
  Model : Option String
  City : Option String
deriving DecidableEq

/-- After `drop_features`. -/
structure Row1 where
  Age : Option Int
  Driving_experience : Option Int
  Vehicle_type : Option String
  Year_of_manufacture : Option String
  Insurance_period : Option String
  Privileges : Option String
  Color : Option String
  Brand : Option String
  Model : Option String
  City : Option String
deriving DecidableEq

/-- After `clean_vehicle_and_insurance_info`: `Year_of_manufacture` is gone,
`Car_age` has been added. -/
structure Row2 where
  Age : Option Int
  Driving_experience : Option Int
  Vehicle_type : Option String
  Insurance_period : Option String
  Privileges : Option String
  Color : Option String
  Brand : Option String
  Model : Option String
  City : Option String
  Car_age : Option Int
deriving DecidableEq

/-- After `split_insurance_dates`: `start_date`/`end_date` added. -/
structure Row3 where
  Age : Option Int
  Driving_experience : Option Int
  Vehicle_type : Option String
  Insurance_period : Option String
  Privileges : Option String
  Color : Option String
  Brand : Option String
  Model : Option String
  City : Option String
  Car_age : Option Int
  start_date : Option Date
  end_date : Option Date
deriving DecidableEq

/-- After `calculate_insurance_duration`: the period and date columns are
dropped, `Insurance_months` added (an `Int`, since the step only succeeds
when every row's dates are present). -/
structure Row4 where
  Age : Option Int
  Driving_experience : Option Int
  Vehicle_type : Option String
  Privileges : Option String
  Color : Option String
  Brand : Option String
  Model : Option String
  City : Option String
  Car_age : Option Int
  Insurance_months : Int
deriving DecidableEq

/-- After `map_city_to_region`: `City` dropped, `Region` added (always
present, thanks to the final `fillna('Unknown')`). -/
structure RowOut where
  Age : Option Int
  Driving_experience : Option Int
  Vehicle_type : Option String
  Privileges : Option String
  Color : Option String
  Brand : Option String
  Model : Option String
  Car_age : Option Int
  Insurance_months : Int
  Region : String
deriving DecidableEq

/-! ### The nine pipeline steps -/

/-- Step `drop_features`: drop `Unique number`, `Citizenship`, `Gender`,
`Loss_amount`, `Accident_region`. -/
def drop_features (t : List Row0) : List Row1 :=
  t.map fun r =>
    { Age := r.Age, Driving_experience := r.Driving_experience,
      Vehicle_type := r.Vehicle_type,
      Year_of_manufacture := r.Year_of_manufacture,
      Insurance_period := r.Insurance_period, Privileges := r.Privileges,
      Color := r.Color, Brand := r.Brand, Model := r.Model, City := r.City }

/-- The under-18 adjustment of `adjust_invalid_driving_experience`:
`Age_gap = Age - Driving_experience`; rows with `Age_gap < 18` (missing gap
compares `False`) get `Driving_experience` reduced by `18 - Age_gap`. -/
def adjustRow (r : Row1) : Row1 :=
  let gap := optSub r.Age r.Driving_experience
  if optLtConst gap 18 then
    match gap with
    | some g =>
      { r with Driving_experience := optSub r.Driving_experience (some (18 - g)) }
    | none => r
  else r

/-- Step `adjust_invalid_driving_experience`: drop rows with
`Driving_experience > Age`, apply the under-18 adjustment, then keep only
rows with `Driving_experience >= 0` (a missing value compares `False` and is
dropped). -/
def adjust_invalid_driving_experience (t : List Row1) : List Row1 :=
  let kept := t.filter fun r => !(optGtB r.Driving_experience r.Age)
  let adjusted := kept.map adjustRow
  adjusted.filter fun r => optGeConst r.Driving_experience 0

/-- The five-entry vehicle-type remap of `clean_vehicle_and_insurance_info`. -/
def vehicle_mapping : List (String × String) :=
  [("Легковые автомобили", "Легковые автомобили"),
   ("Мотоциклы и мотороллеры", "Мотоциклы"),
   ("Грузовые автомобили", "Грузовые"),
   ("Автобусы до 16 п/м вкл.", "Автобусы"),
   ("Автобусы, свыше 16 п/м", "Автобусы")]

/-- The filter `Vehicle_type.isin([...])` against the two trailer labels; a missing
value is not `isin` and is therefore kept by the `~isin` filter. -/
def isTrailer (v : Option String) : Bool :=
  v == some "Прицеп к грузовой а/м" || v == some "Прицеп к легковой а/м"

/-- Per-row part of `clean_vehicle_and_insurance_info`: `Series.map` of the
vehicle mapping (values outside the mapping, including missing ones, become
missing), and `Car_age = 2025 - year(to_datetime(Year_of_manufacture))`
with missing propagation; `Year_of_manufacture` is dropped. -/
def vehicleRow (r : Row1) : Row2 :=
  { Age := r.Age, Driving_experience := r.Driving_experience,
    Vehicle_type := r.Vehicle_type.bind (lookupPairs vehicle_mapping),
    Insurance_period := r.Insurance_period, Privileges := r.Privileges,
    Color := r.Color, Brand := r.Brand, Model := r.Model, City := r.City,
    Car_age := (r.Year_of_manufacture.bind parseFlexi).map fun d => 2025 - d.year }

/-- Step `clean_vehicle_and_insurance_info`: filter out trailer rows, then apply
the per-row vehicle/car-age transformation. -/
def clean_vehicle_and_insurance_info (t : List Row1) : List Row2 :=
  (t.filter fun r => !(isTrailer r.Vehicle_type)).map vehicleRow

/-- Per-row part of `split_insurance_dates`: split the period string on `-`
and parse both parts with format `%d.%m.%Y` (`errors="coerce"`); a missing
second part (zero hyphens) and a missing period both yield `NaT`. -/
def splitRow (r : Row2) : Row3 :=
  let ps := (r.Insurance_period.map (strSplit '-')).getD []
  { Age := r.Age, Driving_experience := r.Driving_experience,
    Vehicle_type := r.Vehicle_type, Insurance_period := r.Insurance_period,
    Privileges := r.Privileges, Color := r.Color, Brand := r.Brand,
    Model := r.Model, City := r.City, Car_age := r.Car_age,
    start_date := ps[0]?.bind parseDMY, end_date := ps[1]?.bind parseDMY }

/-- Number of columns `Insurance_period.str.split('-', expand=True)`
produces: the maximum part count over the present values (at least 1). -/
def splitNCols (t : List Row2) : Nat :=
  (t.filterMap fun r => r.Insurance_period).foldl
    (fun n s => max n (strSplit '-' s).length) 1

/-- Step `split_insurance_dates`: the two-column assignment
`df[['start_date', 'end_date']] = ...` raises a `ValueError` unless the
expanded split has exactly two columns. -/
def split_insurance_dates (t : List Row2) : Except String (List Row3) :=
  if splitNCols t = 2 then .ok (t.map splitRow)
  else .error "Columns must be same length as key"

/-- The inner `calculate_months` of `calculate_insurance_duration`:
`relativedelta(end, start)` followed by `years * 12 + (months + 1)`.
`none` models the `AssertionError` that `relativedelta` raises when either
date is `NaT` (whose `year`/`month` fields are `nan`, so the month total is
`nan` and the `assert 1 <= abs(months) <= 12` guard in `__add__` fails). -/
def calculate_months (r : Row3) : Option Int :=
  match r.end_date, r.start_date with
  | some e, some s =>
    let ym := rdYearsMonths e s
    some (ym.1 * 12 + (ym.2 + 1))
  | _, _ => none

/-- Per-row column bookkeeping of `calculate_insurance_duration`: store the
month count, drop `Insurance_period`, `start_date`, `end_date`. -/
def durationRow (r : Row3) (n : Int) : Row4 :=
  { Age := r.Age, Driving_experience := r.Driving_experience,
    Vehicle_type := r.Vehicle_type, Privileges := r.Privileges,
    Color := r.Color, Brand := r.Brand, Model := r.Model, City := r.City,
    Car_age := r.Car_age, Insurance_months := n }

/-- Step `calculate_insurance_duration`: `df.apply(calculate_months, axis=1)`
raises (aborting the pipeline) as soon as a row has a missing date;
otherwise every row gets its month count. -/
def calculate_insurance_duration (t : List Row3) : Except String (List Row4) :=
  if t.all fun r => (calculate_months r).isSome then
    .ok (t.map fun r => durationRow r ((calculate_months r).getD 0))
  else .error "AssertionError"

/-- Step `fill_missing_privileges`: `fillna('Не инвалид')` on `Privileges`. -/
def fill_missing_privileges (t : List Row4) : List Row4 :=
  t.map fun r => { r with Privileges := some (r.Privileges.getD "Не инвалид") }

/-- The color synonym table of `standardize_colors`. -/
def color_mapping : List (String × String) :=
  [("белый", "Белый"), ("снежная королева", "Белый"),
   ("жемчужно-белый", "Белый"), ("бело-серый", "Белый"),
   ("черный", "Черный"), ("черный металлик", "Черный"),
   ("черный с фиолетовым отливом", "Черный"),
   ("серый", "Серый"), ("темно-серый", "Серый"), ("графит", "Серый"),
   ("мокрый асфальт", "Серый"),
   ("синий", "Синий"), ("темно-синий", "Синий"), ("ярко-синий", "Синий"),
   ("сине-зеленый", "Синий"),
   ("зеленый", "Зеленый"), ("лайм", "Зеленый"), ("изумрудный", "Зеленый"),
   ("оливковый", "Зеленый"),
   ("красный", "Красный"), ("бордовый", "Красный"), ("вишневый", "Красный"),
   ("коралл", "Красный"),
   ("желтый", "Желтый"), ("лимонный", "Желтый"), ("светло-желтый", "Желтый"),
   ("коричневый", "Коричневый"), ("мокко", "Коричневый"),
   ("шоколадный", "Коричневый"),
   ("фиолетовый", "Фиолетовый"), ("сиреневый", "Фиолетовый"),
   ("лиловый", "Фиолетовый")]

/-- Per-row part of `standardize_colors`: `astype(str)` (so a missing value
becomes the literal string `"nan"`), then
`color_mapping.get(col.strip().lower(), 'Прочие')`. -/
def colorRow (r : Row4) : Row4 :=
  let key := pyLower (pyStrip (astypeStr r.Color))
  { r with Color := some ((lookupPairs color_mapping key).getD "Прочие") }

/-- Step `standardize_colors` (the `Color` column exists in this model, so the
presence guard of the source takes its `True` branch). -/
def standardize_colors (t : List Row4) : List Row4 :=
  t.map colorRow

/-- The non-missing values of a column, in row order. -/
def presentVals (vs : List (Option String)) : List String :=
  vs.filterMap id

/-- Distinct values in order of first occurrence. -/
def uniqueInOrder (l : List String) : List String :=
  l.foldl (fun acc v => if acc.contains v then acc else acc ++ [v]) []

/-- Insert a value/count pair into a count-descending list, before the first
entry whose count is ≤ its own (so equal counts keep their original relative
order when the whole list is sorted with `sortCountsDesc`). -/
def insertDesc (x : String × Nat) : List (String × Nat) → List (String × Nat)
  | [] => [x]
  | y :: ys => if y.2 ≤ x.2 then x :: y :: ys else y :: insertDesc x ys

/-- Stable sort by count, descending (insertion sort). -/
def sortCountsDesc : List (String × Nat) → List (String × Nat)
  | [] => []
  | x :: xs => insertDesc x (sortCountsDesc xs)

/-- Models `Series.value_counts()`: occurrence counts of the non-missing values,
sorted by count descending.  The order among tied counts is
implementation-defined in pandas; it is modelled here as stable
(first-occurrence order), one deterministic choice. -/
def valueCountsSorted (vs : List (Option String)) : List (String × Nat) :=
  let pv := presentVals vs
  sortCountsDesc ((uniqueInOrder pv).map fun v => (v, pv.count v))

/-- Models `value_counts().nlargest(n).index`: the `n` most frequent values. -/
def nlargestIdx (n : Nat) (vs : List (Option String)) : List String :=
  ((valueCountsSorted vs).take n).map (·.1)

/-- The rename of the brand alias `Лада` to `Lada` on one cell. -/
def renameBrand (b : Option String) : Option String :=
  if b == some "Лада" then some "Lada" else b

/-- The replacement of the model placeholder `.` by `Unknown` on one cell
(exact-match scalar replace;
a missing value is untouched). -/
def dotToUnknown (m : Option String) : Option String :=
  if m == some "." then some "Unknown" else m

/-- Collapse a cell to itself if it is in the top set, `'Other'` otherwise
(the `apply(lambda b: b if b in top else 'Other')` step; a missing value is
not `in` the top set, so it also becomes `'Other'`). -/
def collapseTop (top : List String) (v : Option String) : Option String :=
  match v with
  | some b => if top.contains b then some b else some "Other"
  | none => some "Other"

/-- Step `standardize_brands_and_models`: rename `Лада` to `Lada`, keep the 37
most frequent brands and collapse the rest to `Other`; replace the `.`
placeholder in `Model` with `Unknown`, keep the 50 most frequent models and
collapse the rest to `Other` (both columns exist in this model, so the
presence guards take their `True` branches). -/
def standardize_brands_and_models (t : List Row4) : List Row4 :=
  let t1 := t.map fun r => { r with Brand := renameBrand r.Brand }
  let top_brands := nlargestIdx 37 (t1.map (·.Brand))
  let t2 := t1.map fun r => { r with Brand := collapseTop top_brands r.Brand }
  let t3 := t2.map fun r => { r with Model := dotToUnknown r.Model }
  let top_models := nlargestIdx 50 (t3.map (·.Model))
  t3.map fun r => { r with Model := collapseTop top_models r.Model }

/-- The city → region table of `map_city_to_region`. -/
def region_mapping : List (String × String) :=
  [("Алматы", "Алматинская область"),
   ("Нур-Султан", "Астана"),
   ("Актобе", "Актюбинская область"),
   ("Петропавловск", "Северо-Казахстанская область"),
   ("Кокшетау", "Акмолинская область"),
   ("Костанай", "Костанайская область"),
   ("Павлодар", "Павлодарская область"),
   ("Караганда", "Карагандинская область"),
   ("Семей", "Восточно-Казахстанская область"),
   ("Актау", "Мангистауская область"),
   ("Атырау", "Атырауская область"),
   ("Уральск", "Западно-Казахстанская область"),
   ("Талдыкорган", "Алматинская область"),
   ("Шымкент", "Туркестанская область"),
   ("Кызылорда", "Кызылординская область"),
   ("Тараз", "Жамбылская область"),
   ("Усть-Каменогорск", "Восточно-Казахстанская область"),
   ("Рудный", "Костанайская область"),
   ("Темиртау", "Карагандинская область"),
   ("Есик", "Алматинская область"),
   ("Атбасар", "Акмолинская область"),
   ("Жаксы", "Акмолинская область"),
   ("Есиль", "Северо-Казахстанская область"),
   ("Красный Яр", "Актюбинская область"),
   ("Мариновка", "Костанайская область"),
   ("Запорожье", "Костанайская область"),
   ("Новоалександровка", "Костанайская область"),
   ("Балкашино", "Акмолинская область"),
   ("Лозовое", "Костанайская область"),
   ("Талгар", "Алматинская область"),
   ("Есенгельды", "Алматинская область"),
   ("Новокиенка", "Костанайская область"),
   ("Борисовка", "Северо-Казахстанская область"),
   ("Аршалы", "Акмолинская область"),
   ("Максимовка", "Акмолинская область"),
   ("Боралдай", "Алматинская область"),
   ("Покровка", "Актюбинская область"),
   ("Октябрьское", "Актюбинская область"),
   ("Садовое", "Северо-Казахстанская область"),
   ("Тимашевка", "Костанайская область")]

/-- Per-row part of `map_city_to_region`: `astype(str)` (missing becomes
`"nan"`), take the part before the first comma, strip it, look it up, and
fill an unmapped result with `Unknown`; `City` and the intermediate cleaned
name are dropped. -/
def cityRow (r : Row4) : RowOut :=
  let cleaned := pyStrip ((strSplit ',' (astypeStr r.City)).headD "")
  { Age := r.Age, Driving_experience := r.Driving_experience,
    Vehicle_type := r.Vehicle_type, Privileges := r.Privileges,
    Color := r.Color, Brand := r.Brand, Model := r.Model,
    Car_age := r.Car_age, Insurance_months := r.Insurance_months,
    Region := (lookupPairs region_mapping cleaned).getD "Unknown" }

/-- Step `map_city_to_region` (the `City` column exists in this model, so the
presence guard takes its `True` branch). -/
def map_city_to_region (t : List Row4) : List RowOut :=
  t.map cityRow

/-- The full pipeline `clean`, in the source's fixed order; an exception in
a step aborts the run. -/
def clean (t : List Row0) : Except String (List RowOut) :=
  let t1 := drop_features t
  let t2 := adjust_invalid_driving_experience t1
  let t3 := clean_vehicle_and_insurance_info t2
  match split_insurance_dates t3 with
  | .error e => .error e
  | .ok t4 =>
    match calculate_insurance_duration t4 with
    | .error e => .error e
    | .ok t5 =>
      .ok (map_city_to_region (standardize_brands_and_models
            (standardize_colors (fill_missing_privileges t5))))

/-- The 37 most frequent post-rename brand values of a table. -/
def topBrands (t : List Row4) : List String :=
  nlargestIdx 37 (t.map fun r => renameBrand r.Brand)

/-- The 50 most frequent post-dot-replacement model values of a table. -/
def topModels (t : List Row4) : List String :=
  nlargestIdx 50 (t.map fun r => dotToUnknown r.Model)

/-- The four canonical vehicle categories. -/
def canonicalVehicleTypes : List String :=
  ["Легковые автомобили", "Мотоциклы", "Грузовые", "Автобусы"]

deriving instance DecidableEq for Except

/-! ### Concrete rows and tables used by counterexamples and witnesses -/

/-- A well-behaved input row: it flows through the whole pipeline. -/
def baseRow : Row0 :=
  { Unique_number := some "1", Citizenship := some "KZ", Gender := some "M",
    Loss_amount := none, Accident_region := none,
    Age := some 40, Driving_experience := some 10,
    Vehicle_type := some "Легковые автомобили",
    Year_of_manufacture := some "2015",
    Insurance_period := some "01.01.2024-31.03.2024",
    Privileges := none, Color := some "белый",
    Brand := some "Toyota", Model := some "Camry",
    City := some "Алматы, мкр. Самал" }

/-- The cleaned output row for `baseRow`. -/
def baseOutRow : RowOut :=
  { Age := some 40, Driving_experience := some 10,
    Vehicle_type := some "Легковые автомобили",
    Privileges := some "Не инвалид", Color := some "Белый",
    Brand := some "Toyota", Model := some "Camry",
    Car_age := some 10, Insurance_months := 3,
    Region := "Алматинская область" }

/-- A table whose only row has a missing `Age` and a present, nonnegative
`Driving_experience`. -/
def missingAgeTable : List Row0 :=
  [{ baseRow with Age := none, Driving_experience := some 5 }]

/-- The cleaned output row for `missingAgeTable`. -/
def missingAgeOutRow : RowOut :=
  { baseOutRow with Age := none, Driving_experience := some 5 }

/-- A table whose only row has a vehicle type outside both the trailer list
and the remap table. -/
def tractorTable : List Row0 :=
  [{ baseRow with Vehicle_type := some "Тракторы" }]

/-- The cleaned output row for `tractorTable`. -/
def tractorOutRow : RowOut :=
  { baseOutRow with Vehicle_type := none }

/-- A table whose only row has two hyphens in its `Insurance_period`. -/
def twoHyphenTable : List Row0 :=
  [{ baseRow with Insurance_period := some "a-b-c" }]

/-- A table whose only row has one hyphen but unparsable date components. -/
def badDatesTable : List Row0 :=
  [{ baseRow with Insurance_period := some "xx-yy" }]

/-- A `Row1` with missing `Age` and present `Driving_experience`. -/
def missingAgeRow1 : Row1 :=
  { Age := none, Driving_experience := some 5, Vehicle_type := none,
    Year_of_manufacture := none, Insurance_period := none, Privileges := none,
    Color := none, Brand := none, Model := none, City := none }

/-- A `Row2` carrying the spec's example insurance period. -/
def exampleRow2 : Row2 :=
  { Age := some 40, Driving_experience := some 10,
    Vehicle_type := some "Легковые автомобили",
    Insurance_period := some "01.01.2024-31.03.2024",
    Privileges := none, Color := none, Brand := none, Model := none,
    City := none, Car_age := some 10 }

/-- A `Row4` with a missing `Color`. -/
def missingColorRow4 : Row4 :=
  { Age := some 40, Driving_experience := some 10, Vehicle_type := none,
    Privileges := none, Color := none, Brand := none, Model := none,
    City := none, Car_age := none, Insurance_months := 12 }

/-- A small `Row4` table with brands and models, for witnesses. -/
def brandTable : List Row4 :=
  [{ missingColorRow4 with Brand := some "Лада", Model := some "." },
   { missingColorRow4 with Brand := some "Lada", Model := some "2109" },
   { missingColorRow4 with Brand := some "Kia", Model := some "Rio" }]

/-- The table after the first four pipeline steps on `[baseRow]`. -/
def baseT4 : List Row3 :=
  (clean_vehicle_and_insurance_info
    (adjust_invalid_driving_experience (drop_features [baseRow]))).map splitRow

/-- The table after the duration step on `baseT4`. -/
def baseT5 : List Row4 :=
  baseT4.map fun r => durationRow r ((calculate_months r).getD 0)

/-! ### Lemmas about the calendar arithmetic -/

example : parseDMY "31.03.2024" = some ⟨2024, 3, 31⟩ := rfl
example : parseDMY "01.01.2024" = some ⟨2024, 1, 1⟩ := rfl
example : parseDMY "31.04.2024" = none := rfl
example : parseDMY "abc" = none := rfl
example : strSplit '-' "01.01.2024-31.03.2024" = ["01.01.2024", "31.03.2024"] := rfl
example : strSplit '-' "a-b-c" = ["a", "b", "c"] := rfl
example : rdTotalMonths ⟨2024, 3, 31⟩ ⟨2024, 1, 1⟩ = 2 := rfl
example : rdTotalMonths ⟨2024, 3, 1⟩ ⟨2024, 1, 31⟩ = 1 := rfl
example : parseFlexi "2015" = some ⟨2015, 1, 1⟩ := rfl
example : pyLower (pyStrip " Темно-Серый ") = "темно-серый" := rfl

theorem setMonths_recombine (m : Int) :
    (setMonths m).1 * 12 + (setMonths m).2 = m := by
  unfold setMonths
  dsimp only
  split_ifs <;> dsimp only <;> omega

theorem setMonths_natAbs_le (m : Int) : (setMonths m).2.natAbs ≤ 11 := by
  unfold setMonths
  dsimp only
  split_ifs <;> dsimp only <;> omega

theorem daysInMonth_pos (y : Int) (m : Nat) : 1 ≤ daysInMonth y m := by
  unfold daysInMonth
  split_ifs <;> omega

theorem addYM_month_bounds (years months : Int) (other : Date)
    (h1 : 1 ≤ other.month) (h2 : other.month ≤ 12) (hm : months.natAbs ≤ 11) :
    1 ≤ (addYM years months other).month ∧ (addYM years months other).month ≤ 12 ∧
      monthIndex (addYM years months other) = monthIndex other + years * 12 + months := by
  unfold addYM monthIndex
  dsimp only
  split_ifs <;> dsimp only <;> refine ⟨by omega, by omega, by omega⟩

theorem addMonths_month_bounds (d : Date) (m : Int)
    (h1 : 1 ≤ d.month) (h2 : d.month ≤ 12) :
    1 ≤ (addMonths d m).month ∧ (addMonths d m).month ≤ 12 ∧
      monthIndex (addMonths d m) = monthIndex d + m := by
  unfold addMonths
  have h3 := addYM_month_bounds (setMonths m).1 (setMonths m).2 d h1 h2 (setMonths_natAbs_le m)
  have h4 := setMonths_recombine m
  exact ⟨h3.1, h3.2.1, by rw [h3.2.2]; omega⟩

theorem addMonths_day_le (d : Date) (m : Int) : (addMonths d m).day ≤ d.day := by
  unfold addMonths addYM
  dsimp only
  split_ifs <;> dsimp only <;> omega

theorem dateLt_iff (a b : Date) :
    dateLt a b = true ↔
      (a.year < b.year ∨ (a.year = b.year ∧
        (a.month < b.month ∨ (a.month = b.month ∧ a.day < b.day)))) := by
  simp [dateLt, Bool.or_eq_true, Bool.and_eq_true, decide_eq_true_eq, beq_iff_eq]

theorem dateLt_eq_false_iff (a b : Date) :
    dateLt a b = false ↔
      ¬ (a.year < b.year ∨ (a.year = b.year ∧
        (a.month < b.month ∨ (a.month = b.month ∧ a.day < b.day)))) := by
  rw [← dateLt_iff, Bool.not_eq_true]

theorem dateLt_of_monthIndex_lt (a b : Date)
    (ha1 : 1 ≤ a.month) (ha2 : a.month ≤ 12) (hb1 : 1 ≤ b.month) (hb2 : b.month ≤ 12)
    (h : monthIndex a < monthIndex b) : dateLt a b = true := by
  rw [dateLt_iff]
  unfold monthIndex at h
  omega

theorem dateLt_eq_false_of_monthIndex_lt (a b : Date)
    (ha1 : 1 ≤ a.month) (ha2 : a.month ≤ 12) (hb1 : 1 ≤ b.month) (hb2 : b.month ≤ 12)
    (h : monthIndex b < monthIndex a) : dateLt a b = false := by
  rw [dateLt_eq_false_iff]
  unfold monthIndex at h
  omega

theorem monthIndex_inj (a b : Date)
    (ha1 : 1 ≤ a.month) (ha2 : a.month ≤ 12) (hb1 : 1 ≤ b.month) (hb2 : b.month ≤ 12)
    (h : monthIndex a = monthIndex b) : a.year = b.year ∧ a.month = b.month := by
  unfold monthIndex at h
  omega

/-- The whole-month total computed by `relativedelta(d1, d2)` for `d2 ≤ d1`
is nonnegative and is the largest `m` with `d2 + m` months (day-clamped)
not beyond `d1`: the month count of the calendar difference. -/
theorem rdTotalMonths_max (d1 d2 : Date)
    (h1a : 1 ≤ d1.month) (h1b : d1.month ≤ 12)
    (h2a : 1 ≤ d2.month) (h2b : d2.month ≤ 12)
    (hle : dateLt d1 d2 = false) :
    0 ≤ rdTotalMonths d1 d2 ∧
      dateLt d1 (addMonths d2 (rdTotalMonths d1 d2)) = false ∧
      dateLt d1 (addMonths d2 (rdTotalMonths d1 d2 + 1)) = true := by
  have hM0 : (d1.year - d2.year) * 12 + ((d1.month : Int) - (d2.month : Int))
      = monthIndex d1 - monthIndex d2 := by
    unfold monthIndex; ring
  set M0 : Int := (d1.year - d2.year) * 12 + ((d1.month : Int) - (d2.month : Int)) with hM0def
  have hidx : monthIndex d2 ≤ monthIndex d1 := by
    rw [dateLt_eq_false_iff] at hle
    unfold monthIndex
    omega
  have hM0nonneg : 0 ≤ M0 := by omega
  have hrd : rdTotalMonths d1 d2 = rdLoop d1 d2 dateLt (-1) 4 M0 := by
    unfold rdTotalMonths
    rw [hle]
    rfl
  have hunfold4 : rdLoop d1 d2 dateLt (-1) 4 M0 =
      if dateLt d1 (addMonths d2 M0) then rdLoop d1 d2 dateLt (-1) 3 (M0 + -1) else M0 := rfl
  have hb0 := addMonths_month_bounds d2 M0 h2a h2b
  by_cases hc : dateLt d1 (addMonths d2 M0) = true
  · -- the raw month difference overshoots: one decrement
    have hstep : dateLt d1 (addMonths d2 (M0 + -1)) = false := by
      have hb1' := addMonths_month_bounds d2 (M0 + -1) h2a h2b
      exact dateLt_eq_false_of_monthIndex_lt d1 _ h1a h1b hb1'.1 hb1'.2.1 (by omega)
    have hres : rdTotalMonths d1 d2 = M0 + -1 := by
      rw [hrd, hunfold4, if_pos hc]
      have : rdLoop d1 d2 dateLt (-1) 3 (M0 + -1) =
          if dateLt d1 (addMonths d2 (M0 + -1)) then
            rdLoop d1 d2 dateLt (-1) 2 (M0 + -1 + -1) else M0 + -1 := rfl
      rw [this, if_neg (by rw [hstep]; exact Bool.false_ne_true)]
    have hM0pos : 1 ≤ M0 := by
      by_contra hlt
      have hM00 : M0 = 0 := by omega
      have hidx0 : monthIndex (addMonths d2 M0) = monthIndex d1 := by
        rw [hb0.2.2, hM00]; omega
      have hym := monthIndex_inj _ _ hb0.1 hb0.2.1 h1a h1b hidx0
      have hym2 := monthIndex_inj d2 d1 h2a h2b h1a h1b (by omega)
      rw [dateLt_iff] at hc
      rw [dateLt_eq_false_iff] at hle
      have hday : d1.day < (addMonths d2 M0).day := by
        rcases hc with h | ⟨_, h | ⟨_, h⟩⟩ <;> omega
      have hday2 := addMonths_day_le d2 M0
      omega
    refine ⟨by omega, by rw [hres]; exact hstep, ?_⟩
    have : M0 + -1 + 1 = M0 := by omega
    rw [hres, this]
    exact hc
  · -- no overshoot: the raw month difference is the answer
    have hc' : dateLt d1 (addMonths d2 M0) = false := by
      exact Bool.not_eq_true _ ▸ (Bool.eq_false_iff.mpr hc)
    have hres : rdTotalMonths d1 d2 = M0 := by
      rw [hrd, hunfold4, if_neg (by rw [hc']; exact Bool.false_ne_true)]
    have hb1' := addMonths_month_bounds d2 (M0 + 1) h2a h2b
    refine ⟨by omega, by rw [hres]; exact hc', ?_⟩
    rw [hres]
    exact dateLt_of_monthIndex_lt d1 _ h1a h1b hb1'.1 hb1'.2.1 (by omega)

/-! ### Lemmas about parsing -/

theorem parseDMY_valid (s : String) (d : Date) (h : parseDMY s = some d) :
    1 ≤ d.month ∧ d.month ≤ 12 ∧ 1 ≤ d.day ∧
      d.day ≤ daysInMonth d.year d.month ∧ 1 ≤ d.year := by
  unfold parseDMY at h
  split at h
  · dsimp only at h
    split_ifs at h with h1 h2
    · injection h with h'
      subst h'
      dsimp only
      refine ⟨h2.2.2.1, h2.2.2.2.1, h2.1, h2.2.2.2.2.2, by omega⟩
  · exact absurd h (by simp)

/-! ### Per-stage membership and field-preservation lemmas -/

theorem adjustRow_Age (r : Row1) : (adjustRow r).Age = r.Age := by
  unfold adjustRow
  dsimp only
  split_ifs
  · split <;> rfl
  · rfl

theorem vehicle_mem {t : List Row1} {w : Row2}
    (h : w ∈ clean_vehicle_and_insurance_info t) :
    ∃ r ∈ t, isTrailer r.Vehicle_type = false ∧ w = vehicleRow r := by
  unfold clean_vehicle_and_insurance_info at h
  rcases List.mem_map.mp h with ⟨r, hr, rfl⟩
  rcases List.mem_filter.mp hr with ⟨hrt, hcond⟩
  exact ⟨r, hrt, by simpa using hcond, rfl⟩

theorem split_ok_eq {t : List Row2} {rows : List Row3}
    (h : split_insurance_dates t = .ok rows) : rows = t.map splitRow := by
  unfold split_insurance_dates at h
  split_ifs at h
  injection h with h'
  exact h'.symm

theorem duration_ok_eq {t : List Row3} {rows : List Row4}
    (h : calculate_insurance_duration t = .ok rows) :
    rows = t.map (fun r => durationRow r ((calculate_months r).getD 0)) := by
  unfold calculate_insurance_duration at h
  split_ifs at h
  injection h with h'
  exact h'.symm

theorem brands_mem {t : List Row4} {w : Row4}
    (h : w ∈ standardize_brands_and_models t) :
    ∃ r ∈ t, w.Age = r.Age ∧ w.Driving_experience = r.Driving_experience ∧
      w.Vehicle_type = r.Vehicle_type ∧ w.Car_age = r.Car_age ∧
      w.Insurance_months = r.Insurance_months := by
  unfold standardize_brands_and_models at h
  dsimp only at h
  rcases List.mem_map.mp h with ⟨r3, h3, rfl⟩
  rcases List.mem_map.mp h3 with ⟨r2, h2, rfl⟩
  rcases List.mem_map.mp h2 with ⟨r1, hm1, rfl⟩
  rcases List.mem_map.mp hm1 with ⟨r0, h0, rfl⟩
  exact ⟨r0, h0, rfl, rfl, rfl, rfl, rfl⟩

/-- Chasing a final-output row back to the output of
`clean_vehicle_and_insurance_info`: the later steps never change `Age`,
`Driving_experience`, `Vehicle_type` or `Car_age`. -/
theorem clean_mem_stage3 {t : List Row0} {out : List RowOut} {w : RowOut}
    (h : clean t = .ok out) (hw : w ∈ out) :
    ∃ r2 ∈ clean_vehicle_and_insurance_info
        (adjust_invalid_driving_experience (drop_features t)),
      w.Age = r2.Age ∧ w.Driving_experience = r2.Driving_experience ∧
      w.Vehicle_type = r2.Vehicle_type ∧ w.Car_age = r2.Car_age := by
  unfold clean at h
  dsimp only at h
  rcases hs : split_insurance_dates
      (clean_vehicle_and_insurance_info
        (adjust_invalid_driving_experience (drop_features t))) with e | t4
  · rw [hs] at h
    exact absurd h (by simp)
  · rw [hs] at h
    dsimp only at h
    rcases hd : calculate_insurance_duration t4 with e | t5
    · rw [hd] at h
      exact absurd h (by simp)
    · rw [hd] at h
      dsimp only at h
      injection h with h'
      subst h'
      rcases List.mem_map.mp hw with ⟨r4, h4, rfl⟩
      rcases brands_mem h4 with ⟨rc, hc, e1, e2, e3, e4, _⟩
      rcases List.mem_map.mp hc with ⟨rf, hf, rfl⟩
      rcases List.mem_map.mp hf with ⟨r5, h5, rfl⟩
      have h5' : r5 ∈ t5 := h5
      rw [duration_ok_eq hd] at h5'
      rcases List.mem_map.mp h5' with ⟨r3, h3, rfl⟩
      have h3' : r3 ∈ t4 := h3
      rw [split_ok_eq hs] at h3'
      rcases List.mem_map.mp h3' with ⟨r2, h2, rfl⟩
      refine ⟨r2, h2, ?_, ?_, ?_, ?_⟩
      · exact e1
      · exact e2
      · exact e3
      · exact e4

/-- Every row the `adjust_invalid_driving_experience` step keeps has a
present nonnegative `Driving_experience`, bounded by `Age` whenever `Age`
is present. -/
theorem adjust_post {t : List Row1} {w : Row1}
    (h : w ∈ adjust_invalid_driving_experience t) :
    ∃ e : Int, w.Driving_experience = some e ∧ 0 ≤ e ∧
      ∀ a : Int, w.Age = some a → e ≤ a := by
  unfold adjust_invalid_driving_experience at h
  dsimp only at h
  rcases List.mem_filter.mp h with ⟨hmem, hge⟩
  rcases List.mem_map.mp hmem with ⟨r, hr, rfl⟩
  rcases List.mem_filter.mp hr with ⟨-, hgt⟩
  rcases hA : r.Age with _ | a0 <;> rcases hE : r.Driving_experience with _ | e0
  · -- both missing: the final filter rejects a missing experience
    simp [adjustRow, optSub, optLtConst, hA, hE, optGeConst] at hge
  · -- Age missing, experience present: no adjustment, bound is vacuous
    refine ⟨e0, ?_, ?_, ?_⟩
    · simp [adjustRow, optSub, optLtConst, hA, hE]
    · simp [adjustRow, optSub, optLtConst, hA, hE, optGeConst] at hge
      exact hge
    · intro a ha
      rw [adjustRow_Age, hA] at ha
      exact absurd ha (by simp)
  · -- experience missing: the final filter rejects the row
    simp [adjustRow, optSub, optLtConst, hA, hE, optGeConst] at hge
  · -- both present
    have hgt' : e0 ≤ a0 := by
      simp only [optGtB, hA, hE, Bool.not_eq_true', decide_eq_false_iff_not] at hgt
      omega
    simp only [adjustRow, optSub, optLtConst, hA, hE, decide_eq_true_eq] at hge ⊢
    split_ifs at hge ⊢ with hlt
    · -- started under 18: experience becomes Age - 18
      simp only [optGeConst, decide_eq_true_eq] at hge
      refine ⟨e0 - (18 - (a0 - e0)), rfl, hge, ?_⟩
      intro a ha
      simp only [hA, Option.some.injEq] at ha
      omega
    · -- no adjustment
      simp only [optGeConst, hE, decide_eq_true_eq] at hge
      exact ⟨e0, hE, hge, fun a ha => by
        rw [hA] at ha
        injection ha with ha
        omega⟩


/-! ### Lookup-table lemmas -/

theorem lookupPairs_mem_values (m : List (String × String)) (k w : String)
    (h : lookupPairs m k = some w) : w ∈ m.map (·.2) := by
  unfold lookupPairs at h
  rcases Option.map_eq_some'.mp h with ⟨pr, hf, rfl⟩
  exact List.mem_map.mpr ⟨pr, List.mem_of_find?_eq_some hf, rfl⟩

theorem vehicle_mapping_values (w : String)
    (h : w ∈ vehicle_mapping.map (·.2)) : w ∈ canonicalVehicleTypes := by
  simp only [vehicle_mapping, List.map_cons, List.map_nil, List.mem_cons,
    List.not_mem_nil, or_false] at h
  rcases h with rfl | rfl | rfl | rfl | rfl <;> simp [canonicalVehicleTypes]

/-! ### Fold-max lemmas, for the expanded-split column count -/

theorem foldl_max_le (c : Nat) :
    ∀ (l : List String) (init : Nat), init ≤ c →
      (∀ x ∈ l, (strSplit '-' x).length ≤ c) →
      l.foldl (fun n s => max n (strSplit '-' s).length) init ≤ c := by
  intro l
  induction l with
  | nil => intro init h _; exact h
  | cons y ys ih =>
    intro init hinit hall
    rw [List.foldl_cons]
    refine ih _ ?_ fun x hx => hall x (by simp [hx])
    have := hall y (by simp)
    omega

theorem init_le_foldl_max :
    ∀ (l : List String) (init : Nat),
      init ≤ l.foldl (fun n s => max n (strSplit '-' s).length) init := by
  intro l
  induction l with
  | nil => intro init; exact Nat.le_refl _
  | cons y ys ih =>
    intro init
    rw [List.foldl_cons]
    exact Nat.le_trans (Nat.le_max_left _ ((strSplit '-' y).length)) (ih _)

theorem le_foldl_max :
    ∀ (l : List String) (init : Nat) (x : String), x ∈ l →
      (strSplit '-' x).length ≤
        l.foldl (fun n s => max n (strSplit '-' s).length) init := by
  intro l
  induction l with
  | nil => intro _ x hx; exact absurd hx (by simp)
  | cons y ys ih =>
    intro init x hx
    rw [List.foldl_cons]
    rcases List.mem_cons.mp hx with rfl | hx'
    · exact Nat.le_trans (Nat.le_max_right init _) (init_le_foldl_max ys _)
    · exact ih _ x hx'


/-! ### Sorting lemmas, for `value_counts().nlargest(n)` -/

theorem mem_insertDesc (x y : String × Nat) :
    ∀ l : List (String × Nat), y ∈ insertDesc x l ↔ y = x ∨ y ∈ l := by
  intro l
  induction l with
  | nil => simp [insertDesc]
  | cons z zs ih =>
    unfold insertDesc
    split_ifs
    · simp
    · simp [ih]
      tauto

theorem pairwise_insertDesc (x : String × Nat) :
    ∀ l : List (String × Nat),
      l.Pairwise (fun a b => b.2 ≤ a.2) →
      (insertDesc x l).Pairwise (fun a b => b.2 ≤ a.2) := by
  intro l
  induction l with
  | nil => intro _; simp [insertDesc]
  | cons z zs ih =>
    intro hp
    rcases List.pairwise_cons.mp hp with ⟨hz, hzs⟩
    unfold insertDesc
    split_ifs with hle
    · exact List.pairwise_cons.mpr ⟨by
        intro b hb
        rcases List.mem_cons.mp hb with rfl | hb'
        · exact hle
        · exact Nat.le_trans (hz b hb') hle,
        hp⟩
    · refine List.pairwise_cons.mpr ⟨?_, ih hzs⟩
      intro b hb
      rcases (mem_insertDesc x b zs).mp hb with rfl | hb'
      · omega
      · exact hz b hb'

theorem sortCountsDesc_pairwise :
    ∀ l : List (String × Nat),
      (sortCountsDesc l).Pairwise (fun a b => b.2 ≤ a.2) := by
  intro l
  induction l with
  | nil => simp [sortCountsDesc]
  | cons x xs ih => exact pairwise_insertDesc x _ ih

theorem mem_sortCountsDesc (y : String × Nat) :
    ∀ l : List (String × Nat), y ∈ sortCountsDesc l ↔ y ∈ l := by
  intro l
  induction l with
  | nil => simp [sortCountsDesc]
  | cons x xs ih =>
    unfold sortCountsDesc
    rw [mem_insertDesc, ih]
    simp

theorem mem_uniqueInOrder_aux (v : String) :
    ∀ (l acc : List String),
      v ∈ l.foldl (fun acc w => if acc.contains w then acc else acc ++ [w]) acc ↔
        v ∈ acc ∨ v ∈ l := by
  intro l
  induction l with
  | nil => simp
  | cons y ys ih =>
    intro acc
    rw [List.foldl_cons]
    by_cases hy : acc.contains y
    · rw [if_pos hy, ih]
      have hy' : y ∈ acc := by simpa using hy
      simp only [List.mem_cons]
      constructor
      · rintro (h | h)
        · exact Or.inl h
        · exact Or.inr (Or.inr h)
      · rintro (h | h | h)
        · exact Or.inl h
        · exact Or.inl (h ▸ hy')
        · exact Or.inr h
    · rw [if_neg hy, ih]
      simp only [List.mem_append, List.mem_cons, List.mem_singleton]
      tauto

theorem mem_uniqueInOrder (v : String) (l : List String) :
    v ∈ uniqueInOrder l ↔ v ∈ l := by
  unfold uniqueInOrder
  rw [mem_uniqueInOrder_aux]
  simp

theorem valueCountsSorted_mem (vs : List (Option String)) (p : String × Nat)
    (h : p ∈ valueCountsSorted vs) :
    p.1 ∈ presentVals vs ∧ p.2 = (presentVals vs).count p.1 := by
  unfold valueCountsSorted at h
  rw [mem_sortCountsDesc] at h
  rcases List.mem_map.mp h with ⟨v, hv, rfl⟩
  exact ⟨(mem_uniqueInOrder v _).mp hv, rfl⟩

theorem valueCountsSorted_mem_of_present (vs : List (Option String)) (v : String)
    (h : v ∈ presentVals vs) :
    (v, (presentVals vs).count v) ∈ valueCountsSorted vs := by
  unfold valueCountsSorted
  rw [mem_sortCountsDesc]
  exact List.mem_map.mpr ⟨v, (mem_uniqueInOrder v _).mpr h, rfl⟩

/-- The selection `nlargestIdx n` keeps at most `n` values, and every kept value occurs at
least as often as every non-kept present value. -/
theorem nlargest_spec (n : Nat) (vs : List (Option String)) :
    (nlargestIdx n vs).length ≤ n ∧
      ∀ b ∈ nlargestIdx n vs, ∀ v ∈ presentVals vs, v ∉ nlargestIdx n vs →
        (presentVals vs).count v ≤ (presentVals vs).count b := by
  constructor
  · unfold nlargestIdx
    rw [List.length_map, List.length_take]
    omega
  · intro b hb v hv hvn
    rcases List.mem_map.mp hb with ⟨pb, hpb, rfl⟩
    have hpbL : pb ∈ valueCountsSorted vs := List.mem_of_mem_take hpb
    have hpb2 := valueCountsSorted_mem vs pb hpbL
    have hvL : (v, (presentVals vs).count v) ∈ valueCountsSorted vs :=
      valueCountsSorted_mem_of_present vs v hv
    have hsplit := List.take_append_drop n (valueCountsSorted vs)
    have hpair := sortCountsDesc_pairwise
      ((uniqueInOrder (presentVals vs)).map fun v => (v, (presentVals vs).count v))
    have hpair2 : (valueCountsSorted vs).Pairwise (fun a b => b.2 ≤ a.2) := hpair
    rw [← hsplit] at hpair2
    rcases List.pairwise_append.mp hpair2 with ⟨-, -, hcross⟩
    have hvdrop : (v, (presentVals vs).count v) ∈
        (valueCountsSorted vs).drop n := by
      rcases List.mem_append.mp (hsplit ▸ hvL) with hin | hin
      · exact absurd (List.mem_map.mpr ⟨_, hin, rfl⟩) hvn
      · exact hin
    have := hcross pb hpb _ hvdrop
    calc (presentVals vs).count v ≤ pb.2 := this
      _ = (presentVals vs).count pb.1 := hpb2.2

/-! ### Claim theorems -/

/-- Claim C9 (counterexample): a row with missing `Age` but present,
nonnegative `Driving_experience` is NOT removed by
`adjust_invalid_driving_experience` — refuting "Every row whose Age or
Driving_experience value is missing is removed". -/
theorem claim9_counterexample :
    missingAgeRow1.Age = none ∧
      adjust_invalid_driving_experience [missingAgeRow1] = [missingAgeRow1] := by
  constructor
  · decide
  · decide

/-- Claim C9 (amended): every row whose `Driving_experience` is missing is
removed by `adjust_invalid_driving_experience` (it is not caught by the
experience-greater-than-age filter and receives no adjustment, but the final
`Driving_experience >= 0` filter is not satisfied by a missing value); a row
with missing `Age` is retained whenever its `Driving_experience` is present
and nonnegative. -/
theorem claim9_theorem (t : List Row1) :
    (∀ w ∈ adjust_invalid_driving_experience t,
        ∃ e : Int, w.Driving_experience = some e ∧ 0 ≤ e) ∧
    (∀ r ∈ t, r.Age = none → ∀ e : Int, r.Driving_experience = some e →
        0 ≤ e → r ∈ adjust_invalid_driving_experience t) := by
  constructor
  · intro w hw
    rcases adjust_post hw with ⟨e, he, h0, -⟩
    exact ⟨e, he, h0⟩
  · intro r hr hA e hE h0
    unfold adjust_invalid_driving_experience
    dsimp only
    have hadj : adjustRow r = r := by
      unfold adjustRow
      simp [optSub, hA, optLtConst]
    refine List.mem_filter.mpr
      ⟨List.mem_map.mpr ⟨r, List.mem_filter.mpr ⟨hr, ?_⟩, hadj⟩, ?_⟩
    · simp [optGtB, hA, hE]
    · simp only [optGeConst, hE, decide_eq_true_eq]
      exact h0

/-- Claim C9 witness: the amended theorem applied to the concrete
missing-`Age` row. -/
theorem claim9_witness :
    missingAgeRow1 ∈ adjust_invalid_driving_experience [missingAgeRow1] :=
  (claim9_theorem [missingAgeRow1]).2 missingAgeRow1 (by decide) (by decide)
    5 (by decide) (by decide)

/-- Claim C10 (confirmed): in `standardize_colors`, a missing `Color` does
not remain missing: the value is first converted to its string form
(`astype(str)`, so a missing value becomes the string `"nan"`), then looked
up after trim/lowercase, so it maps to the catch-all `'Прочие'`. -/
theorem claim10_theorem (t : List Row4) (r : Row4) (hr : r ∈ t)
    (hc : r.Color = none) :
    colorRow r ∈ standardize_colors t ∧ (colorRow r).Color = some "Прочие" := by
  refine ⟨List.mem_map.mpr ⟨r, hr, rfl⟩, ?_⟩
  show some ((lookupPairs color_mapping
      (pyLower (pyStrip (astypeStr r.Color)))).getD "Прочие") = some "Прочие"
  rw [hc]
  rfl

/-- Claim C10 witness: the theorem applied to a concrete row with missing
`Color`. -/
theorem claim10_witness :
    colorRow missingColorRow4 ∈ standardize_colors [missingColorRow4] ∧
      (colorRow missingColorRow4).Color = some "Прочие" :=
  claim10_theorem [missingColorRow4] missingColorRow4 (by decide) (by decide)

/-- Claim C5 (confirmed): after `clean_vehicle_and_insurance_info`, each
output row's `Car_age` is `2025 - year` of the parsed
`Year_of_manufacture` when it parses, and missing when it does not (the
raw `Year_of_manufacture` column no longer exists on the output row type). -/
theorem claim5_theorem (t : List Row1) (w : Row2)
    (h : w ∈ clean_vehicle_and_insurance_info t) :
    ∃ r ∈ t,
      (∀ d : Date, r.Year_of_manufacture.bind parseFlexi = some d →
          w.Car_age = some (2025 - d.year)) ∧
      (r.Year_of_manufacture.bind parseFlexi = none → w.Car_age = none) := by
  rcases vehicle_mem h with ⟨r, hr, -, rfl⟩
  refine ⟨r, hr, ?_, ?_⟩
  · intro d hd
    show (r.Year_of_manufacture.bind parseFlexi).map (fun d => 2025 - d.year) = _
    rw [hd]
    rfl
  · intro hd
    show (r.Year_of_manufacture.bind parseFlexi).map (fun d => 2025 - d.year) = none
    rw [hd]
    rfl

/-- Claim C5 witness: the theorem applied to a concrete row whose
manufacture year parses. -/
theorem claim5_witness :
    ∃ r ∈ [{ missingAgeRow1 with Year_of_manufacture := some "2015" }],
      (∀ d : Date, r.Year_of_manufacture.bind parseFlexi = some d →
          (vehicleRow { missingAgeRow1 with
            Year_of_manufacture := some "2015" }).Car_age = some (2025 - d.year)) ∧
      (r.Year_of_manufacture.bind parseFlexi = none →
          (vehicleRow { missingAgeRow1 with
            Year_of_manufacture := some "2015" }).Car_age = none) :=
  claim5_theorem [{ missingAgeRow1 with Year_of_manufacture := some "2015" }]
    (vehicleRow { missingAgeRow1 with Year_of_manufacture := some "2015" })
    (by decide)

/-- Claim C7 (counterexample): a row whose period has one hyphen but
unparsable date components gives missing `start_date`/`end_date`, and the
pipeline then ABORTS in `calculate_insurance_duration` (the `relativedelta`
call raises on `NaT`) instead of producing a missing `Insurance_months`. -/
theorem claim7_counterexample :
    clean badDatesTable = Except.error "AssertionError" := by decide

/-- Claim C7 (amended): for every table containing a row whose `start_date`
or `end_date` is missing, `calculate_insurance_duration` raises (the whole
step fails) rather than producing a missing `Insurance_months` for that
row. -/
theorem claim7_theorem (t : List Row3)
    (h : ∃ r ∈ t, r.start_date = none ∨ r.end_date = none) :
    calculate_insurance_duration t = Except.error "AssertionError" := by
  rcases h with ⟨r, hr, hmiss⟩
  have hnone : (calculate_months r).isSome = false := by
    rcases he : r.end_date with _ | e <;> rcases hs : r.start_date with _ | s <;>
      simp_all [calculate_months]
  cases hb : t.all fun r => (calculate_months r).isSome with
  | false => simp [calculate_insurance_duration, hb]
  | true =>
    exfalso
    have := List.all_eq_true.mp hb r hr
    simp [hnone] at this

/-- Claim C7 witness: the amended theorem applied to a concrete table with
an unparsable period. -/
theorem claim7_witness :
    calculate_insurance_duration
        [splitRow { exampleRow2 with Insurance_period := some "xx-yy" }] =
      Except.error "AssertionError" :=
  claim7_theorem _
    ⟨splitRow { exampleRow2 with Insurance_period := some "xx-yy" },
      by decide, Or.inl (by decide)⟩

/-- Claim C1 (counterexample): `clean` keeps a row whose `Age` is missing
and whose `Driving_experience` is `5`, so "Driving_experience <= Age" does
not hold of every output row. -/
theorem claim1_counterexample :
    clean missingAgeTable = Except.ok [missingAgeOutRow] ∧
      ¬ ∃ a e : Int, missingAgeOutRow.Age = some a ∧
          missingAgeOutRow.Driving_experience = some e ∧ 0 ≤ e ∧ e ≤ a := by
  refine ⟨by decide, ?_⟩
  rintro ⟨a, e, ha, -⟩
  simp [missingAgeOutRow, baseOutRow] at ha

/-- Claim C1 (amended): every row of the table returned by `clean` has a
present `Driving_experience` with `Driving_experience >= 0`, and
`Driving_experience <= Age` whenever `Age` is present (rows violating these
bounds after the under-18 adjustment have been dropped; a row with missing
`Age` can survive with the `Age` bound vacuous). -/
theorem claim1_theorem (t : List Row0) (out : List RowOut) (w : RowOut)
    (h : clean t = Except.ok out) (hw : w ∈ out) :
    ∃ e : Int, w.Driving_experience = some e ∧ 0 ≤ e ∧
      ∀ a : Int, w.Age = some a → e ≤ a := by
  rcases clean_mem_stage3 h hw with ⟨r2, h2, eAge, eDE, -, -⟩
  rcases vehicle_mem h2 with ⟨r1, h1, -, rfl⟩
  rcases adjust_post h1 with ⟨e, he, h0, hle⟩
  refine ⟨e, ?_, h0, ?_⟩
  · rw [eDE]
    exact he
  · intro a ha
    apply hle
    rw [eAge] at ha
    exact ha

/-- Claim C1 witness: the amended theorem applied to the cleaned base
table. -/
theorem claim1_witness :
    ∃ e : Int, baseOutRow.Driving_experience = some e ∧ 0 ≤ e ∧
      ∀ a : Int, baseOutRow.Age = some a → e ≤ a :=
  claim1_theorem [baseRow] [baseOutRow] baseOutRow (by decide) (by decide)

/-- Claim C2 (counterexample): an input vehicle type outside the remap
table (here "Тракторы") is neither dropped nor mapped to a canonical
category: `clean` keeps the row with a MISSING `Vehicle_type`, refuting
"no row carries a Vehicle_type outside this set (including no missing
value)". -/
theorem claim2_counterexample :
    clean tractorTable = Except.ok [tractorOutRow] ∧
      tractorOutRow.Vehicle_type = none ∧
      ¬ ∃ v, tractorOutRow.Vehicle_type = some v ∧ v ∈ canonicalVehicleTypes := by
  refine ⟨by decide, by decide, ?_⟩
  rintro ⟨v, hv, -⟩
  simp [tractorOutRow, baseOutRow] at hv

/-- Claim C2 (amended): every PRESENT `Vehicle_type` value in the table
returned by `clean` is one of the four canonical categories; a value
outside the five-entry remap becomes a missing value and its row is
retained. -/
theorem claim2_theorem (t : List Row0) (out : List RowOut) (w : RowOut)
    (v : String) (h : clean t = Except.ok out) (hw : w ∈ out)
    (hv : w.Vehicle_type = some v) : v ∈ canonicalVehicleTypes := by
  rcases clean_mem_stage3 h hw with ⟨r2, h2, -, -, eVT, -⟩
  rcases vehicle_mem h2 with ⟨r1, -, -, rfl⟩
  rw [eVT] at hv
  have hv' : r1.Vehicle_type.bind (lookupPairs vehicle_mapping) = some v := hv
  rcases Option.bind_eq_some.mp hv' with ⟨s, -, hs⟩
  exact vehicle_mapping_values v (lookupPairs_mem_values _ s v hs)

/-- Claim C2 witness: the amended theorem applied to the cleaned base
table. -/
theorem claim2_witness : "Легковые автомобили" ∈ canonicalVehicleTypes :=
  claim2_theorem [baseRow] [baseOutRow] baseOutRow "Легковые автомобили"
    (by decide) (by decide) (by decide)

/-- Claim C4 (counterexample): a period value with two hyphens makes the
two-column split assignment fail, so the pipeline ABORTS instead of
completing with missing dates. -/
theorem claim4_counterexample :
    clean twoHyphenTable = Except.error "Columns must be same length as key" := by
  decide

/-- Claim C4 (amended): `split_insurance_dates` completes without abort —
row-locally producing (possibly missing) parsed dates — exactly when the
hyphen-split of the present period values spans two columns (some value
has one hyphen and none has more).  The three conjuncts exhaust the
possible tables, since every value splits into at least one part: if any
value has two or more hyphens, the step raises and the pipeline aborts,
and likewise if no present value contains a hyphen at all (which includes
a table with no present period value).  (A missing parsed date then
aborts the subsequent duration step; that is claim C7.) -/
theorem claim4_theorem (t : List Row2) :
    ((∃ r ∈ t, ∃ s, r.Insurance_period = some s ∧ (strSplit '-' s).length = 2) →
      (∀ r ∈ t, ∀ s, r.Insurance_period = some s → (strSplit '-' s).length ≤ 2) →
      split_insurance_dates t = Except.ok (t.map splitRow)) ∧
    ((∃ r ∈ t, ∃ s, r.Insurance_period = some s ∧ 3 ≤ (strSplit '-' s).length) →
      split_insurance_dates t = Except.error "Columns must be same length as key") ∧
    ((∀ r ∈ t, ∀ s, r.Insurance_period = some s → (strSplit '-' s).length ≤ 1) →
      split_insurance_dates t = Except.error "Columns must be same length as key") := by
  refine ⟨?_, ?_, ?_⟩
  · rintro ⟨r, hr, s, hrs, h2⟩ hall
    have hsmem : s ∈ t.filterMap (fun r => r.Insurance_period) :=
      List.mem_filterMap.mpr ⟨r, hr, hrs⟩
    have hub : splitNCols t ≤ 2 := by
      unfold splitNCols
      exact foldl_max_le 2 _ 1 (by omega) fun x hx => by
        rcases List.mem_filterMap.mp hx with ⟨r', hr', hx'⟩
        exact hall r' hr' x hx'
    have hlb : 2 ≤ splitNCols t := by
      unfold splitNCols
      have := le_foldl_max (t.filterMap fun r => r.Insurance_period) 1 s hsmem
      omega
    unfold split_insurance_dates
    rw [if_pos (by omega)]
  · rintro ⟨r, hr, s, hrs, h3⟩
    have hsmem : s ∈ t.filterMap (fun r => r.Insurance_period) :=
      List.mem_filterMap.mpr ⟨r, hr, hrs⟩
    have hlb : 3 ≤ splitNCols t := by
      unfold splitNCols
      have := le_foldl_max (t.filterMap fun r => r.Insurance_period) 1 s hsmem
      omega
    unfold split_insurance_dates
    rw [if_neg (by omega)]
  · intro hall
    have hub : splitNCols t ≤ 1 := by
      unfold splitNCols
      exact foldl_max_le 1 _ 1 (by omega) fun x hx => by
        rcases List.mem_filterMap.mp hx with ⟨r', hr', hx'⟩
        exact hall r' hr' x hx'
    unfold split_insurance_dates
    rw [if_neg (by omega)]

/-- Claim C4 witness: the amended theorem applied to a concrete one-hyphen
table (completing without abort) and to a concrete hyphen-free table
(aborting). -/
theorem claim4_witness :
    split_insurance_dates [exampleRow2] = Except.ok ([exampleRow2].map splitRow) ∧
      split_insurance_dates [{ exampleRow2 with Insurance_period := some "abc" }] =
        Except.error "Columns must be same length as key" := by
  constructor
  · exact (claim4_theorem [exampleRow2]).1
      ⟨exampleRow2, by decide, "01.01.2024-31.03.2024", by decide, by decide⟩
      (by
        intro r hr s hs
        have hr' : r = exampleRow2 := by simpa using hr
        subst hr'
        simp only [exampleRow2, Option.some.injEq] at hs
        subst hs
        decide)
  · exact (claim4_theorem [{ exampleRow2 with Insurance_period := some "abc" }]).2.2
      (by
        intro r hr s hs
        have hr' : r = { exampleRow2 with Insurance_period := some "abc" } := by
          simpa using hr
        subst hr'
        simp only [exampleRow2, Option.some.injEq] at hs
        subst hs
        decide)

/-- Claim C6 (confirmed): none of the nine pipeline steps run by `clean`
ever increases the table's row count (`drop_features` and the later
column-only steps preserve it, the filtering steps can shrink it, and the
two fallible steps preserve it whenever they succeed). -/
theorem claim6_theorem (t0 : List Row0) :
    (drop_features t0).length ≤ t0.length ∧
    (adjust_invalid_driving_experience (drop_features t0)).length ≤
      (drop_features t0).length ∧
    (clean_vehicle_and_insurance_info
        (adjust_invalid_driving_experience (drop_features t0))).length ≤
      (adjust_invalid_driving_experience (drop_features t0)).length ∧
    ∀ t4 : List Row3,
      split_insurance_dates (clean_vehicle_and_insurance_info
        (adjust_invalid_driving_experience (drop_features t0))) = Except.ok t4 →
      t4.length ≤ (clean_vehicle_and_insurance_info
        (adjust_invalid_driving_experience (drop_features t0))).length ∧
      ∀ t5 : List Row4, calculate_insurance_duration t4 = Except.ok t5 →
        t5.length ≤ t4.length ∧
        (fill_missing_privileges t5).length ≤ t5.length ∧
        (standardize_colors (fill_missing_privileges t5)).length ≤
          (fill_missing_privileges t5).length ∧
        (standardize_brands_and_models
            (standardize_colors (fill_missing_privileges t5))).length ≤
          (standardize_colors (fill_missing_privileges t5)).length ∧
        (map_city_to_region (standardize_brands_and_models
            (standardize_colors (fill_missing_privileges t5)))).length ≤
          (standardize_brands_and_models
            (standardize_colors (fill_missing_privileges t5))).length := by
  refine ⟨?_, ?_, ?_, ?_⟩
  · rw [drop_features, List.length_map]
  · unfold adjust_invalid_driving_experience
    dsimp only
    refine Nat.le_trans (List.length_filter_le _ _) ?_
    rw [List.length_map]
    exact List.length_filter_le _ _
  · unfold clean_vehicle_and_insurance_info
    rw [List.length_map]
    exact List.length_filter_le _ _
  · intro t4 h4
    refine ⟨by rw [split_ok_eq h4, List.length_map], ?_⟩
    intro t5 h5
    refine ⟨by rw [duration_ok_eq h5, List.length_map], ?_, ?_, ?_, ?_⟩
    · rw [fill_missing_privileges, List.length_map]
    · rw [standardize_colors, List.length_map]
    · simp [standardize_brands_and_models, List.length_map]
    · rw [map_city_to_region, List.length_map]

/-- Claim C6 witness: the theorem applied to the base table, with the two
fallible steps instantiated at their actual outputs. -/
theorem claim6_witness :
    baseT4.length ≤ (clean_vehicle_and_insurance_info
      (adjust_invalid_driving_experience (drop_features [baseRow]))).length ∧
    baseT5.length ≤ baseT4.length := by
  have h := claim6_theorem [baseRow]
  have h4 := h.2.2.2 baseT4 (by decide)
  exact ⟨h4.1, (h4.2 baseT5 (by decide)).1⟩

/-- Claim C8 (confirmed): `standardize_brands_and_models` renames `Лада` to
`Lada`, keeps exactly the values of the 37-most-frequent post-rename brand
set and collapses every other brand to `Other`; it replaces the `.`
placeholder in `Model` by `Unknown`, keeps the 50-most-frequent model set
and collapses the rest to `Other`.  The kept sets are computed by a
deterministic function of the table, contain at most 37 / 50 values, and
every kept value occurs at least as often as every non-kept present
value. -/
theorem claim8_theorem (t : List Row4) :
    standardize_brands_and_models t =
      t.map (fun r =>
        { r with Brand := collapseTop (topBrands t) (renameBrand r.Brand),
                 Model := collapseTop (topModels t) (dotToUnknown r.Model) }) ∧
    (topBrands t).length ≤ 37 ∧
    (∀ b ∈ topBrands t, ∀ v ∈ presentVals (t.map fun r => renameBrand r.Brand),
        v ∉ topBrands t →
          (presentVals (t.map fun r => renameBrand r.Brand)).count v ≤
            (presentVals (t.map fun r => renameBrand r.Brand)).count b) ∧
    (topModels t).length ≤ 50 ∧
    (∀ m ∈ topModels t, ∀ v ∈ presentVals (t.map fun r => dotToUnknown r.Model),
        v ∉ topModels t →
          (presentVals (t.map fun r => dotToUnknown r.Model)).count v ≤
            (presentVals (t.map fun r => dotToUnknown r.Model)).count m) := by
  refine ⟨?_, (nlargest_spec 37 _).1, (nlargest_spec 37 _).2,
    (nlargest_spec 50 _).1, (nlargest_spec 50 _).2⟩
  unfold standardize_brands_and_models topBrands topModels
  dsimp only
  simp only [List.map_map]
  rfl

/-- Claim C8 witness: the theorem applied to a concrete brand/model
table. -/
theorem claim8_witness :
    standardize_brands_and_models brandTable =
      brandTable.map (fun r =>
        { r with Brand := collapseTop (topBrands brandTable) (renameBrand r.Brand),
                 Model := collapseTop (topModels brandTable) (dotToUnknown r.Model) }) ∧
    (topBrands brandTable).length ≤ 37 :=
  ⟨(claim8_theorem brandTable).1, (claim8_theorem brandTable).2.1⟩

/-- Claim C3 (confirmed): for every row out of `split_insurance_dates`
whose dates both parsed, the duration computation produces
`years * 12 + months + 1` where `years`/`months` are the whole-year and
residual whole-month components of the calendar difference
`end_date - start_date`: writing `M` for the total, `Insurance_months`
is `M + 1` and (for `start ≤ end`) `M` is the largest month count `m`
with `start + m` months not beyond `end`.  In particular the period
`"01.01.2024-31.03.2024"` yields `Insurance_months = 3`. -/
theorem claim3_theorem :
    (∀ (t : List Row2) (rows : List Row3) (r : Row3),
        split_insurance_dates t = Except.ok rows → r ∈ rows →
        ∀ ds de : Date, r.start_date = some ds → r.end_date = some de →
          calculate_months r = some (rdTotalMonths de ds + 1) ∧
          (dateLt de ds = false →
            0 ≤ rdTotalMonths de ds ∧
            dateLt de (addMonths ds (rdTotalMonths de ds)) = false ∧
            dateLt de (addMonths ds (rdTotalMonths de ds + 1)) = true)) ∧
    (split_insurance_dates [exampleRow2]).bind calculate_insurance_duration =
      Except.ok [durationRow (splitRow exampleRow2) 3] := by
  constructor
  · intro t rows r hsp hr ds de hs he
    rw [split_ok_eq hsp] at hr
    rcases List.mem_map.mp hr with ⟨r2, -, rfl⟩
    have hsv : ∃ s0, parseDMY s0 = some ds := by
      have h' : (splitRow r2).start_date = some ds := hs
      unfold splitRow at h'
      dsimp only at h'
      rcases Option.bind_eq_some.mp h' with ⟨s0, -, hp⟩
      exact ⟨s0, hp⟩
    have hev : ∃ s0, parseDMY s0 = some de := by
      have h' : (splitRow r2).end_date = some de := he
      unfold splitRow at h'
      dsimp only at h'
      rcases Option.bind_eq_some.mp h' with ⟨s0, -, hp⟩
      exact ⟨s0, hp⟩
    rcases hsv with ⟨s0, hps⟩
    rcases hev with ⟨s1, hpe⟩
    have hvs := parseDMY_valid s0 ds hps
    have hve := parseDMY_valid s1 de hpe
    constructor
    · simp only [calculate_months, hs, he, rdYearsMonths]
      have := setMonths_recombine (rdTotalMonths de ds)
      simp only [Option.some.injEq]
      omega
    · intro hle
      exact rdTotalMonths_max de ds hve.1 hve.2.1 hvs.1 hvs.2.1 hle
  · decide

/-- Claim C3 witness: the theorem applied to the spec's example period
`"01.01.2024-31.03.2024"` (start `2024-01-01`, end `2024-03-31`). -/
theorem claim3_witness :
    calculate_months (splitRow exampleRow2) =
        some (rdTotalMonths ⟨2024, 3, 31⟩ ⟨2024, 1, 1⟩ + 1) ∧
      (dateLt (⟨2024, 3, 31⟩ : Date) ⟨2024, 1, 1⟩ = false →
        0 ≤ rdTotalMonths ⟨2024, 3, 31⟩ ⟨2024, 1, 1⟩ ∧
        dateLt ⟨2024, 3, 31⟩
          (addMonths ⟨2024, 1, 1⟩ (rdTotalMonths ⟨2024, 3, 31⟩ ⟨2024, 1, 1⟩)) = false ∧
        dateLt ⟨2024, 3, 31⟩
          (addMonths ⟨2024, 1, 1⟩
            (rdTotalMonths ⟨2024, 3, 31⟩ ⟨2024, 1, 1⟩ + 1)) = true) :=
  claim3_theorem.1 [exampleRow2] ([exampleRow2].map splitRow)
    (splitRow exampleRow2) (by decide) (by decide)
    ⟨2024, 1, 1⟩ ⟨2024, 3, 31⟩ (by decide) (by decide)
